import Mathlib

/-
Verification of the document question-answering service (src/app.py and
src/build_index.py): a shallow embedding of the retrieval pipeline —
similarity search with thresholding, context assembly, image collection,
and document chunk extraction — together with theorems settling the
specification's claims about it.

Conventions of the embedding:
  * Python strings are Lean `String`s; the handful of Python string
    primitives the code uses (`strip`, `lower`, `split`, substring `in`)
    are modelled by structurally recursive functions on `String.data`.
  * Similarity scores (floats in [-1, 1]) are modelled as rationals `ℚ`;
    only order comparisons against the threshold matter to the code.
  * A metadata entry (a Python dict) is a structure whose `content`,
    `type` and `image` fields are `Option String`: `none` models either
    an absent key (for the `"content" in item` membership tests) or the
    Python value `None` (for the `image` field of text chunks).
  * The FAISS index search output is passed in as an explicit list of
    (score, index) pairs; indices are `Int` because FAISS uses -1 as a
    sentinel when fewer than k vectors exist, and Python list indexing
    accepts negative positions.
-/

namespace Chat

/-! ### Python primitives -/

/-- Python `str.strip()`: drop whitespace from both ends. -/
def pyStrip (s : String) : String :=
  ⟨((s.data.dropWhile Char.isWhitespace).reverse.dropWhile Char.isWhitespace).reverse⟩

/-- Python `str.lower()`. -/
def pyLower (s : String) : String := ⟨s.data.map Char.toLower⟩

/-- Helper for Python `str.split()`: split a character list on whitespace
runs, discarding empty tokens; `acc` is the reversed current token. -/
def splitWSAux : List Char → List Char → List (List Char)
  | [], acc => if acc = [] then [] else [acc.reverse]
  | c :: cs, acc =>
    if c.isWhitespace then
      if acc = [] then splitWSAux cs [] else acc.reverse :: splitWSAux cs []
    else splitWSAux cs (c :: acc)

/-- Python `s.lower().split()`: lowercased whitespace-delimited tokens. -/
def pyWords (s : String) : List String := (splitWSAux (pyLower s).data []).map fun l => ⟨l⟩

/-- Python `sep.join(parts)`. -/
def pyJoin (sep : String) : List String → String
  | [] => ""
  | [s] => s
  | s :: t :: rest => s ++ sep ++ pyJoin sep (t :: rest)

/-- Contiguous-sublist test on character lists (Python substring `in`). -/
def listSubstr (w : List Char) : List Char → Bool
  | [] => w.isEmpty
  | c :: t => w.isPrefixOf (c :: t) || listSubstr w t

/-- Python `w in text` for strings: substring containment. -/
def pyIn (w text : String) : Bool := listSubstr w.data text.data

/-- Python `s.startswith(pre)`. -/
def pyStartsWith (s pre : String) : Bool := pre.data.isPrefixOf s.data

/-- Python slicing `s[:n]`: the first `n` characters of `s`. -/
def strTake (s : String) (n : Nat) : String := ⟨s.data.take n⟩

/-- Python truthiness of an optional string: `None` and `""` are falsy. -/
def pyTruthy (o : Option String) : Bool :=
  match o with
  | none => false
  | some s => s != ""

/-- Python indexing `xs[i]` with an `Int` position: non-negative positions
index from the front, negative positions from the back (`xs[-1]` is the
last element); `none` models the `IndexError` cases. -/
def pyGet {α : Type} (xs : List α) (i : Int) : Option α :=
  if 0 ≤ i then xs[i.toNat]?
  else if 0 ≤ i + xs.length then xs[(i + xs.length).toNat]?
  else none

/-! ### Data model: metadata entries (build_index.py lines 53-58, 78-83, 120-125) -/

/-- A metadata-store entry: the dict appended by build_index.py. `none` in
`content`/`type`/`image` models an absent key or the value `None`. -/
structure Item where
  content : Option String
  type : Option String
  image : Option String
  source_doc : String
deriving DecidableEq

/-! ### Configuration (app.py lines 15-17) -/

/-- `SIMILARITY_THRESHOLD = 0.30` (app.py line 15), as the rational 3/10,
written with an explicit numerator/denominator so the kernel can evaluate
comparisons against it. -/
def SIMILARITY_THRESHOLD : ℚ := ⟨3, 10, by norm_num, by norm_num⟩

/-- Sanity check: the threshold constant is the rational 3/10 = 0.30. -/
lemma SIMILARITY_THRESHOLD_eq : SIMILARITY_THRESHOLD = 3 / 10 := by
  rw [SIMILARITY_THRESHOLD, Rat.mk'_eq_divInt, Rat.divInt_eq_div]
  norm_num

/-- `TOP_K = 12` (app.py line 16). -/
def TOP_K : Nat := 12

/-- `MAX_CONTEXT_LENGTH = 3000` (app.py line 17). -/
def MAX_CONTEXT_LENGTH : Nat := 3000

/-! ### The search function (app.py lines 43-64) -/

/-- The final field check of the search loop (app.py line 61):
`if "content" in item and "type" in item: results.append(item)`. -/
def keepItem (it : Item) : Option Item :=
  if it.content.isSome && it.type.isSome then some it else none

/-- The filtering loop of `search` (app.py lines 50-64), parametrised by
the threshold `t` so the threshold-monotonicity claim can be stated.
`cands` is the FAISS output `zip(scores[0], indices[0])` in returned
order. Mirrors the code: the bounds test `idx < len(metadata)` first,
then the score test `score >= t`, then `item = metadata[idx]` (Python
indexing, hence `pyGet`), then the field test. -/
def searchWith (t : ℚ) (md : List Item) (cands : List (ℚ × Int)) : List Item :=
  cands.filterMap fun c =>
    if c.2 < (md.length : Int) then
      if t ≤ c.1 then (pyGet md c.2).bind keepItem else none
    else none

/-- `search` at the configured threshold (app.py lines 43-64). -/
def searchResults (md : List Item) (cands : List (ℚ × Int)) : List Item :=
  searchWith SIMILARITY_THRESHOLD md cands

/-- Spec-side acceptance test for a candidate, written from the spec's
words: score at least the threshold, and the candidate's metadata entry
possesses both a `content` and a `type` field. -/
def passesSpec (t : ℚ) (md : List Item) (c : ℚ × Int) : Bool :=
  decide (t ≤ c.1) &&
    (match md[c.2.toNat]? with
     | some it => it.content.isSome && it.type.isSome
     | none => false)

/-- Spec-side retriever, written from the spec's words: exactly the
candidates that pass the threshold-and-fields test, in the order the
index search returned them (descending score), mapped to their metadata
entries. -/
def specRetrieve (md : List Item) (cands : List (ℚ × Int)) : List Item :=
  (cands.filter (passesSpec SIMILARITY_THRESHOLD md)).filterMap fun c => md[c.2.toNat]?

/-- A well-formed index-search output entry: either a valid position into
the metadata store, or a FAISS sentinel (negative index, whose filler
score is below any positive threshold). -/
def ValidCand (t : ℚ) (md : List Item) (c : ℚ × Int) : Prop :=
  (0 ≤ c.2 ∧ c.2 < (md.length : Int)) ∨ (c.2 < 0 ∧ c.1 < t)

instance (t : ℚ) (md : List Item) (c : ℚ × Int) : Decidable (ValidCand t md c) :=
  decidable_of_iff ((0 ≤ c.2 ∧ c.2 < (md.length : Int)) ∨ (c.2 < 0 ∧ c.1 < t)) Iff.rfl

lemma searchWith_nil (t : ℚ) (md : List Item) : searchWith t md [] = [] := rfl

lemma searchWith_cons (t : ℚ) (md : List Item) (c : ℚ × Int) (rest : List (ℚ × Int)) :
    searchWith t md (c :: rest) =
      (if c.2 < (md.length : Int) then
         if t ≤ c.1 then ((pyGet md c.2).bind keepItem).toList else []
       else []) ++ searchWith t md rest := by
  rw [searchWith, List.filterMap_cons]
  by_cases h1 : c.2 < (md.length : Int)
  · rw [if_pos h1, if_pos h1]
    by_cases hs : t ≤ c.1
    · rw [if_pos hs, if_pos hs]
      rcases hE : (pyGet md c.2).bind keepItem with _ | b <;> simp [searchWith]
    · rw [if_neg hs, if_neg hs]
      simp [searchWith]
  · rw [if_neg h1, if_neg h1]
    simp [searchWith]

lemma filter_filterMap_cons {α β : Type} (p : α → Bool) (g : α → Option β) (c : α)
    (rest : List α) :
    ((c :: rest).filter p).filterMap g =
      (if p c then (g c).toList else []) ++ (rest.filter p).filterMap g := by
  by_cases hp : p c = true
  · rw [List.filter_cons_of_pos hp, List.filterMap_cons, if_pos hp]
    rcases hE : g c with _ | b <;> simp
  · rw [List.filter_cons_of_neg (by simp [hp]), if_neg (by simp [hp])]
    simp

lemma searchWith_eq_spec (t : ℚ) (md : List Item) (cands : List (ℚ × Int)) :
    (∀ c ∈ cands, ValidCand t md c) →
    searchWith t md cands =
      (cands.filter (passesSpec t md)).filterMap fun c => md[c.2.toNat]? := by
  induction cands with
  | nil => intro _; rfl
  | cons c rest ih =>
    intro hvalid
    have hrest := fun x hx => hvalid x (List.mem_cons_of_mem c hx)
    rw [searchWith_cons, filter_filterMap_cons, ih hrest]
    congr 1
    rcases hvalid c (List.mem_cons_self c rest) with ⟨h0, h1⟩ | ⟨hneg, hlow⟩
    · have hlt : c.2.toNat < md.length := by omega
      have hit : md[c.2.toNat]? = some md[c.2.toNat] := List.getElem?_eq_getElem hlt
      have hget : pyGet md c.2 = md[c.2.toNat]? := by rw [pyGet, if_pos h0]
      rw [if_pos h1, hget, hit]
      by_cases hs : t ≤ c.1
      · by_cases hf : md[c.2.toNat].content.isSome = true ∧ md[c.2.toNat].type.isSome = true
        · obtain ⟨hf1, hf2⟩ := hf
          simp [passesSpec, hs, hit, keepItem, hf1, hf2]
        · simp [passesSpec, hs, hit, keepItem, hf]
      · simp [passesSpec, hs, hit]
    · have h1 : c.2 < (md.length : Int) := by omega
      have hs : ¬ t ≤ c.1 := not_le.mpr hlow
      rw [if_pos h1, if_neg hs, if_neg (by simp [passesSpec, hs])]

/-- **C1.** For every query, the retriever's result list contains exactly
the top-k candidates whose score is at least the threshold (0.30) and
whose metadata entry has both a `content` and a `type` field, in
descending-score order: assuming the index-search output is well formed
(valid positions, and sentinels carrying below-threshold filler scores)
and sorted descending by score (the index's contract), `search` returns
precisely the spec-side retrieval, and the accepted candidates remain in
descending-score order. -/
theorem search_matches_spec (md : List Item) (cands : List (ℚ × Int))
    (hvalid : ∀ c ∈ cands, ValidCand SIMILARITY_THRESHOLD md c)
    (hsorted : cands.Pairwise fun a b => b.1 ≤ a.1) :
    searchResults md cands = specRetrieve md cands ∧
      (cands.filter (passesSpec SIMILARITY_THRESHOLD md)).Pairwise fun a b => b.1 ≤ a.1 :=
  ⟨searchWith_eq_spec SIMILARITY_THRESHOLD md cands hvalid, hsorted.filter _⟩

/-- Closed instance of C1: a three-entry store, one candidate passing,
one below threshold, one FAISS sentinel. -/
theorem search_matches_spec_witness :
    searchResults
        [⟨some "alpha", some "text", none, "d.docx"⟩,
         ⟨some "beta", some "text", none, "d.docx"⟩,
         ⟨some "gamma", some "image", some "x.png", "d.docx"⟩]
        [(1, 1), (⟨1, 4, by norm_num, by norm_num⟩, 0), (⟨-1, 1, by norm_num, by norm_num⟩, -1)] =
      specRetrieve
        [⟨some "alpha", some "text", none, "d.docx"⟩,
         ⟨some "beta", some "text", none, "d.docx"⟩,
         ⟨some "gamma", some "image", some "x.png", "d.docx"⟩]
        [(1, 1), (⟨1, 4, by norm_num, by norm_num⟩, 0), (⟨-1, 1, by norm_num, by norm_num⟩, -1)] :=
  (search_matches_spec _ _ (by decide) (by decide)).1

/-! ### Threshold monotonicity (C7) -/

lemma searchWith_sublist_of_le (t1 t2 : ℚ) (h : t1 ≤ t2) (md : List Item)
    (cands : List (ℚ × Int)) :
    (searchWith t2 md cands).Sublist (searchWith t1 md cands) := by
  induction cands with
  | nil => exact List.Sublist.refl _
  | cons c rest ih =>
    rw [searchWith_cons, searchWith_cons]
    by_cases hlen : c.2 < (md.length : Int)
    · rw [if_pos hlen, if_pos hlen]
      by_cases h2 : t2 ≤ c.1
      · have h1 : t1 ≤ c.1 := le_trans h h2
        rw [if_pos h2, if_pos h1]
        exact ih.append_left _
      · rw [if_neg h2]
        by_cases h1 : t1 ≤ c.1
        · rw [if_pos h1]
          exact (List.nil_sublist _).append ih
        · rw [if_neg h1]
          exact (List.nil_sublist _).append ih
    · rw [if_neg hlen, if_neg hlen]
      exact (List.nil_sublist _).append ih

/-- **C7.** Threshold monotonicity: for a fixed query and fixed
index-search output, raising the similarity threshold never increases the
result set — for thresholds `t1 ≤ t2`, the results under `t2` are a
subset of the results under `t1`, and there are no more of them. -/
theorem search_threshold_monotone (t1 t2 : ℚ) (md : List Item)
    (cands : List (ℚ × Int)) (h : t1 ≤ t2) :
    searchWith t2 md cands ⊆ searchWith t1 md cands ∧
      (searchWith t2 md cands).length ≤ (searchWith t1 md cands).length :=
  ⟨(searchWith_sublist_of_le t1 t2 h md cands).subset,
   (searchWith_sublist_of_le t1 t2 h md cands).length_le⟩

/-- Closed instance of C7 at thresholds 0.30 and 1. -/
theorem search_threshold_monotone_witness :
    searchWith 1 [⟨some "alpha", some "text", none, "d.docx"⟩]
          [(⟨1, 2, by norm_num, by norm_num⟩, 0)] ⊆
        searchWith SIMILARITY_THRESHOLD [⟨some "alpha", some "text", none, "d.docx"⟩]
          [(⟨1, 2, by norm_num, by norm_num⟩, 0)] ∧
      (searchWith 1 [⟨some "alpha", some "text", none, "d.docx"⟩]
          [(⟨1, 2, by norm_num, by norm_num⟩, 0)]).length ≤
        (searchWith SIMILARITY_THRESHOLD [⟨some "alpha", some "text", none, "d.docx"⟩]
          [(⟨1, 2, by norm_num, by norm_num⟩, 0)]).length :=
  search_threshold_monotone SIMILARITY_THRESHOLD 1 _ _ (by decide)

/-! ### The negative-index hazard (C9) -/

lemma pyGet_neg_one (md : List Item) : pyGet md (-1) = md.getLast? := by
  rw [List.getLast?_eq_getElem?, pyGet, if_neg (by omega)]
  cases md with
  | nil => rw [if_neg (by simp)]; rfl
  | cons a t =>
    rw [if_pos (by rw [List.length_cons]; omega)]
    have harg : ((-1 : Int) + ((a :: t).length : Int)).toNat = (a :: t).length - 1 := by
      rw [List.length_cons]
      omega
    rw [harg]

/-- **C9.** The bounds check admits negative indices: a candidate with the
FAISS sentinel index -1 satisfies `idx < len(metadata)`, and if its score
also passes the threshold, `search` appends the last metadata entry
(Python indexing `metadata[-1]`) instead of rejecting the candidate. -/
theorem search_negative_index (md : List Item) (it : Item) (s : ℚ)
    (hlast : md.getLast? = some it) (hc : it.content.isSome = true)
    (ht : it.type.isSome = true) (hs : SIMILARITY_THRESHOLD ≤ s) :
    ((-1 : Int) < (md.length : Int)) ∧ searchResults md [(s, -1)] = [it] := by
  refine ⟨by omega, ?_⟩
  have hlen : ((s, (-1 : Int)).2 < (md.length : Int)) := by
    show (-1 : Int) < (md.length : Int)
    omega
  rw [searchResults, searchWith_cons, searchWith_nil, if_pos hlen, if_pos hs]
  have hget : pyGet md (s, (-1 : Int)).2 = some it := by
    rw [show ((s, (-1 : Int)).2) = (-1 : Int) from rfl, pyGet_neg_one, hlast]
  rw [hget]
  simp [keepItem, hc, ht]

/-- Closed instance of C9: with a score of 1 and index -1, the second
(last) entry of a two-entry store is appended. -/
theorem search_negative_index_witness :
    ((-1 : Int) < (([⟨some "alpha", some "text", none, "d.docx"⟩,
        ⟨some "beta", some "image", some "b.png", "d.docx"⟩] : List Item).length : Int)) ∧
      searchResults
          [⟨some "alpha", some "text", none, "d.docx"⟩,
           ⟨some "beta", some "image", some "b.png", "d.docx"⟩]
          [(1, -1)] =
        [⟨some "beta", some "image", some "b.png", "d.docx"⟩] :=
  search_negative_index _ _ 1 (by decide) (by decide) (by decide) (by decide)

/-! ### Context assembly and the ask route (app.py lines 79-215) -/

/-- The JSON reply of the ask route: an answer string and image paths. -/
structure Response where
  answer : String
  images : List String
deriving DecidableEq

/-- The text-chunk collection loop (app.py lines 115-119): contents of
the retrieved chunks whose `type` is `"text"`, in retrieval order. The
code reads `r["content"]` directly; `search` guarantees the key exists,
so the `getD ""` default is never exercised on reachable inputs. -/
def textChunks (results : List Item) : List String :=
  results.filterMap fun r => if r.type = some "text" then some (r.content.getD "") else none

/-- The untruncated context `"\n\n".join(text_chunks)` (app.py line 127). -/
def contextFull (results : List Item) : String :=
  pyJoin "\n\n" (textChunks results)

/-- The assembled context: `context[:MAX_CONTEXT_LENGTH]` (app.py line 128). -/
def buildContext (results : List Item) : String :=
  strTake (contextFull results) MAX_CONTEXT_LENGTH

/-- The direct image collection loop (app.py lines 172-181): paths of
retrieved image chunks with a truthy filename, deduplicated, first-seen
order. -/
def directImages (results : List Item) : List String :=
  results.foldl
    (fun acc r =>
      if r.type = some "image" ∧ pyTruthy r.image = true then
        if ("/static/images/" ++ r.image.getD "") ∈ acc then acc
        else acc ++ ["/static/images/" ++ r.image.getD ""]
      else acc)
    []

/-- One iteration of the fallback image loop (app.py lines 188-199):
`ws` is `context_words = context.lower().split()`. -/
def fallbackStep (ws : List String) (acc : List String) (item : Item) : List String :=
  if item.type = some "image" then
    if ws.any (fun w => pyIn w (pyLower (item.content.getD ""))) then
      if pyTruthy item.image then acc ++ ["/static/images/" ++ item.image.getD ""]
      else acc
    else acc
  else acc

/-- The backup image search over the whole metadata store
(app.py lines 184-199). -/
def fallbackImages (md : List Item) (context : String) : List String :=
  md.foldl (fallbackStep (pyWords context)) []

/-- Image list of the reply (app.py lines 172-199): the direct hits, or —
when there are none — the fallback matches. -/
def imageList (md : List Item) (results : List Item) (context : String) : List String :=
  if directImages results = [] then fallbackImages md context else directImages results

/-- The `/ask` route body (app.py lines 79-215). `searchFn` stands for
the call `search(user_question)` and `gen` for the `ollama.chat` call
(`none` models the caught generation exception); `q` is the request's
question field, `none` when absent. -/
def ask (md : List Item) (searchFn : String → List Item)
    (gen : String → String → Option String) (q : Option String) : Response :=
  if pyTruthy q = false then ⟨"Please ask a question.", []⟩
  else if searchFn (q.getD "") = [] then ⟨"This topic is not available in the document.", []⟩
  else if textChunks (searchFn (q.getD "")) = [] then
    ⟨"This topic is not available in the document.", []⟩
  else
    match gen (buildContext (searchFn (q.getD ""))) (q.getD "") with
    | none => ⟨"Error generating answer.", []⟩
    | some ans =>
      ⟨pyStrip ans, imageList md (searchFn (q.getD "")) (buildContext (searchFn (q.getD "")))⟩

/-! ### C2: bounded context assembly -/

lemma strTake_length (s : String) (n : Nat) : (strTake s n).length = min n s.length :=
  List.length_take n s.data

lemma strTake_of_le (s : String) (n : Nat) (h : s.length ≤ n) : strTake s n = s := by
  rw [strTake]
  rw [show s.data.take n = s.data from List.take_of_length_le h]

/-- **C2.** The assembled context is the blank-line-separated
concatenation of the `type=text` chunk contents in retrieval order,
hard-truncated at `MAX_CONTEXT_LENGTH` (3000) characters: its length
never exceeds the limit; it is the character-precise prefix of the full
concatenation; when the full concatenation fits it is returned whole; and
when it exceeds the limit the cutoff is at exactly `MAX_CONTEXT_LENGTH`
characters, not at a chunk boundary. -/
theorem context_assembly (results : List Item) :
    (buildContext results).length ≤ MAX_CONTEXT_LENGTH ∧
    buildContext results = strTake (pyJoin "\n\n" (textChunks results)) MAX_CONTEXT_LENGTH ∧
    ((pyJoin "\n\n" (textChunks results)).length ≤ MAX_CONTEXT_LENGTH →
      buildContext results = pyJoin "\n\n" (textChunks results)) ∧
    (MAX_CONTEXT_LENGTH < (pyJoin "\n\n" (textChunks results)).length →
      (buildContext results).length = MAX_CONTEXT_LENGTH) := by
  refine ⟨?_, rfl, ?_, ?_⟩
  · rw [buildContext, strTake_length]
    omega
  · intro h
    exact strTake_of_le _ _ h
  · intro h
    rw [buildContext, strTake_length, contextFull]
    omega

/-- Two 2000-character text chunks for the truncation witness. -/
def bigItem : Item := ⟨some ⟨List.replicate 2000 'a'⟩, some "text", none, "d.docx"⟩

/-- Closed instance of C2: two 2000-character chunks joined by the
blank-line separator exceed the limit, and the context is cut at exactly
3000 characters. -/
theorem context_assembly_witness :
    (buildContext [bigItem, bigItem]).length ≤ MAX_CONTEXT_LENGTH ∧
    (buildContext [bigItem, bigItem]).length = MAX_CONTEXT_LENGTH :=
  ⟨(context_assembly [bigItem, bigItem]).1,
   (context_assembly [bigItem, bigItem]).2.2.2 (by
    rw [show textChunks [bigItem, bigItem] =
          [⟨List.replicate 2000 'a'⟩, ⟨List.replicate 2000 'a'⟩] from rfl]
    rw [show pyJoin "\n\n" [(⟨List.replicate 2000 'a'⟩ : String), ⟨List.replicate 2000 'a'⟩] =
          (⟨List.replicate 2000 'a'⟩ : String) ++ "\n\n" ++ ⟨List.replicate 2000 'a'⟩ from rfl]
    rw [String.length_append, String.length_append]
    rw [show ((⟨List.replicate 2000 'a'⟩ : String)).length = 2000 from
          List.length_replicate 2000 'a']
    decide)⟩

/-! ### C4: fallback image discovery -/

/-- The condition under which the fallback loop appends an entry
(app.py lines 190-196): image type, some context token occurs as a
substring of the lowercased caption, truthy image filename. -/
def fallbackPred (ws : List String) (item : Item) : Bool :=
  decide (item.type = some "image") &&
    ws.any (fun w => pyIn w (pyLower (item.content.getD ""))) &&
    pyTruthy item.image

lemma fallbackStep_foldl (ws : List String) (md : List Item) (acc : List String) :
    md.foldl (fallbackStep ws) acc =
      acc ++ (md.filter (fallbackPred ws)).map
        (fun item => "/static/images/" ++ item.image.getD "") := by
  induction md generalizing acc with
  | nil => simp
  | cons item rest ih =>
    rw [List.foldl_cons, ih]
    by_cases h1 : item.type = some "image"
    · by_cases h2 : ws.any (fun w => pyIn w (pyLower (item.content.getD ""))) = true
      · by_cases h3 : pyTruthy item.image = true
        · rw [fallbackStep, if_pos h1, if_pos h2, if_pos h3,
            List.filter_cons_of_pos (by simp [fallbackPred, h1, h2, h3])]
          simp
        · rw [fallbackStep, if_pos h1, if_pos h2, if_neg h3,
            List.filter_cons_of_neg (by simp [fallbackPred, h3])]
      · rw [fallbackStep, if_pos h1, if_neg h2,
          List.filter_cons_of_neg (by simp [fallbackPred, h2])]
    · rw [fallbackStep, if_neg h1,
        List.filter_cons_of_neg (by simp [fallbackPred, h1])]

/-- The one-entry metadata store of the C4 counterexample: an image chunk
whose caption is "diagram picture". -/
def cexMd : List Item := [⟨some "diagram picture", some "image", some "x.png", "d.docx"⟩]

/-- **C4 (counterexample).** The claim that the fallback appends exactly
the image entries whose caption *shares a whitespace-delimited token*
with the context is false: with context "ram flow", the caption
"diagram picture" shares no token with the context (so the claimed
result set is empty), yet the fallback appends the image, because the
code tests `w in text` — substring containment of each context token in
the caption — and "ram" occurs inside "diagram". -/
theorem fallback_token_claim_false :
    fallbackImages cexMd "ram flow" = ["/static/images/x.png"] ∧
      (cexMd.filter fun item =>
        (pyWords "ram flow").any fun w => (pyWords (item.content.getD "")).contains w) = [] := by
  constructor
  · rfl
  · rfl

/-- **C4 (amended).** When the directly retrieved chunks yield no image
reference, the reply's image list is the fallback scan of the entire
metadata store, and that scan appends exactly those image-type entries
with a truthy image filename whose lowercased caption *contains as a
substring* at least one whitespace-delimited token of the lowercased
assembled context, as `/static/images/` paths in metadata order. -/
theorem fallback_images_characterization (md : List Item) (results : List Item)
    (context : String) :
    (directImages results = [] → imageList md results context = fallbackImages md context) ∧
      fallbackImages md context =
        (md.filter (fallbackPred (pyWords context))).map
          (fun item => "/static/images/" ++ item.image.getD "") :=
  ⟨fun h => by rw [imageList, if_pos h],
   fallbackStep_foldl (pyWords context) md []⟩

/-- Closed instance of the amended C4: with no direct image hit, the
reply's image list is the fallback list, and the substring rule admits
the "ram"-in-"diagram" match. -/
theorem fallback_images_characterization_witness :
    imageList cexMd [] "ram flow" = fallbackImages cexMd "ram flow" ∧
      fallbackImages cexMd "ram flow" =
        (cexMd.filter (fallbackPred (pyWords "ram flow"))).map
          (fun item => "/static/images/" ++ item.image.getD "") :=
  ⟨(fallback_images_characterization cexMd [] "ram flow").1 rfl,
   (fallback_images_characterization cexMd [] "ram flow").2⟩

/-! ### C6 and C10: sentinel answers of the ask route -/

/-- **C6.** When retrieval returns no chunks, or only chunks whose type
is not `"text"`, the reply is exactly the sentinel answer with an empty
image list — for every generator `gen`, so no generation call can
influence (or be needed for) the response. -/
theorem ask_sentinel_on_no_text (md : List Item) (searchFn : String → List Item)
    (q : Option String) (hq : pyTruthy q = true)
    (h : searchFn (q.getD "") = [] ∨ ∀ r ∈ searchFn (q.getD ""), r.type ≠ some "text") :
    ∀ gen : String → String → Option String,
      ask md searchFn gen q = ⟨"This topic is not available in the document.", []⟩ := by
  intro gen
  rw [ask, if_neg (by rw [hq]; simp)]
  rcases h with h | h
  · rw [if_pos h]
  · have htc : textChunks (searchFn (q.getD "")) = [] := by
      rw [textChunks, List.filterMap_eq_nil_iff]
      intro r hr
      rw [if_neg (h r hr)]
    by_cases hres : searchFn (q.getD "") = []
    · rw [if_pos hres]
    · rw [if_neg hres, if_pos htc]

/-- Closed instance of C6: empty retrieval gives the sentinel even for a
generator that would have answered. -/
theorem ask_sentinel_on_no_text_witness :
    ask [] (fun _ => []) (fun _ _ => some "an answer") (some "hi") =
      ⟨"This topic is not available in the document.", []⟩ :=
  ask_sentinel_on_no_text [] (fun _ => []) (some "hi") rfl (Or.inl rfl) _

/-- **C10.** When the question field is missing or empty (Python-falsy),
the reply is exactly "Please ask a question." with an empty image list —
for every `searchFn` and `gen`, so neither retrieval nor generation can
influence (or be needed for) the response. -/
theorem ask_empty_question (md : List Item) (q : Option String) (hq : pyTruthy q = false) :
    ∀ (searchFn : String → List Item) (gen : String → String → Option String),
      ask md searchFn gen q = ⟨"Please ask a question.", []⟩ := by
  intro searchFn gen
  rw [ask, if_pos hq]

/-- Closed instance of C10: an absent question field short-circuits the
route even when retrieval and generation would have produced output. -/
theorem ask_empty_question_witness :
    ask [] (fun _ => [⟨some "alpha", some "text", none, "d.docx"⟩])
        (fun _ _ => some "an answer") none = ⟨"Please ask a question.", []⟩ :=
  ask_empty_question [] none rfl (fun _ => [⟨some "alpha", some "text", none, "d.docx"⟩])
    (fun _ _ => some "an answer")

/-! ### Chunk extraction (build_index.py lines 31-130) -/

/-- A parsed paragraph of the document source: text and style name. -/
structure Par where
  text : String
  style : String
deriving DecidableEq

/-- An embedded image relationship: the relationship target string, the
pixel dimensions, and the OCR outcome (`none` models a pytesseract
exception; `some t` the raw text before `.strip()`). -/
structure ImgRel where
  targetRef : String
  width : Nat
  height : Nat
  ocr : Option String
deriving DecidableEq

/-- A parsed document: paragraphs, tables (rows of cell texts), and
image relationships, as python-docx exposes them. -/
structure DocModel where
  pars : List Par
  tables : List (List (List String))
  rels : List ImgRel
deriving DecidableEq

/-- `ocr_text` (build_index.py lines 103-106): the stripped OCR output,
empty when OCR raised. -/
def ocrText (o : Option String) : String :=
  match o with
  | some t => pyStrip t
  | none => ""

/-- One step of the paragraph loop (build_index.py lines 40-61); state is
(current_heading, chunks so far). Empty stripped paragraphs are skipped;
Heading-style paragraphs update the heading and emit nothing; any other
paragraph emits a text chunk "heading\ntext". -/
def paraStep (file : String) (st : String × List Item) (p : Par) : String × List Item :=
  if pyStrip p.text = "" then st
  else if pyStartsWith p.style "Heading" then (pyStrip p.text, st.2)
  else (st.1, st.2 ++ [⟨some (st.1 ++ "\n" ++ pyStrip p.text), some "text", none, file⟩])

/-- The paragraph loop over a whole document, from the initial heading
"General" (build_index.py lines 38-61). -/
def paraState (file : String) (d : DocModel) : String × List Item :=
  d.pars.foldl (paraStep file) ("General", [])

/-- The non-empty stripped cells of a table row (build_index.py line 70). -/
def rowCells (row : List String) : List String :=
  row.filterMap fun c => if pyStrip c = "" then none else some (pyStrip c)

/-- The " | "-joined non-empty rows of a table (build_index.py lines 67-72). -/
def tableRows (table : List (List String)) : List String :=
  table.filterMap fun row =>
    if rowCells row = [] then none else some (pyJoin " | " (rowCells row))

/-- The chunk a table contributes (build_index.py lines 74-83): one text
chunk when some row has a non-empty cell, nothing otherwise. -/
def tableChunk (heading file : String) (table : List (List String)) : Option Item :=
  if tableRows table = [] then none
  else some ⟨some (heading ++ "\n" ++ pyJoin "\n" (tableRows table)), some "text", none, file⟩

/-- The fixed diagram-indicator keywords with the surrounding spaces of
the f-string at build_index.py lines 115-118. -/
def IMG_KEYWORDS : String := " diagram figure flowchart architecture illustration "

/-- Processing of one embedded image (build_index.py lines 94-130) at
image counter `cnt`: skipped when either pixel dimension is below 200 or
the OCR text (empty after an OCR failure) is shorter than 5 characters;
otherwise an image chunk whose content is heading ++ keywords ++ OCR
text and whose filename is doc_image_<cnt>.png. -/
def processImage (heading file : String) (cnt : Nat) (img : ImgRel) : Option Item :=
  if img.width < 200 ∨ img.height < 200 then none
  else if (ocrText img.ocr).length < 5 then none
  else some ⟨some (heading ++ IMG_KEYWORDS ++ ocrText img.ocr), some "image",
    some ("doc_image_" ++ toString cnt ++ ".png"), file⟩

/-- One step of the relationship loop (build_index.py lines 90-130):
only relationships whose target contains "image" are examined, and the
counter advances only when a chunk is emitted. -/
def imgStep (heading file : String) (st : List Item × Nat) (img : ImgRel) : List Item × Nat :=
  if pyIn "image" img.targetRef then
    match processImage heading file st.2 img with
    | some it => (st.1 ++ [it], st.2 + 1)
    | none => st
  else st

/-- Extraction of one document (build_index.py lines 31-130): paragraph
chunks, then table chunks, then image chunks, the heading left by the
paragraph loop governing tables and images; returns the chunks in
metadata order and the advanced image counter. -/
def extractDoc (file : String) (cnt0 : Nat) (d : DocModel) : List Item × Nat :=
  ((paraState file d).2
      ++ d.tables.filterMap (tableChunk (paraState file d).1 file)
      ++ (d.rels.foldl (imgStep (paraState file d).1 file) ([], cnt0)).1,
   (d.rels.foldl (imgStep (paraState file d).1 file) ([], cnt0)).2)

/-! ### C3: the image admission rule -/

/-- **C3.** An image relationship yields a chunk iff both pixel
dimensions are at least 200 and the OCR text (empty when OCR fails) has
at least 5 characters; the emitted chunk's content is the concatenation
of the current heading, the fixed keywords, and the OCR text, in that
order. -/
theorem image_chunk_rule (heading file : String) (cnt : Nat) (img : ImgRel) :
    ((processImage heading file cnt img).isSome ↔
      (200 ≤ img.width ∧ 200 ≤ img.height ∧ 5 ≤ (ocrText img.ocr).length)) ∧
    ∀ it, processImage heading file cnt img = some it →
      it.content = some (heading ++ " diagram figure flowchart architecture illustration " ++
        ocrText img.ocr) := by
  constructor
  · rw [processImage]
    by_cases h1 : img.width < 200 ∨ img.height < 200
    · rw [if_pos h1]
      simp only [Option.isSome_none, Bool.false_eq_true, false_iff]
      omega
    · rw [if_neg h1]
      by_cases h2 : (ocrText img.ocr).length < 5
      · rw [if_pos h2]
        simp only [Option.isSome_none, Bool.false_eq_true, false_iff]
        omega
      · rw [if_neg h2]
        simp only [Option.isSome_some, true_iff]
        omega
  · intro it hit
    rw [processImage] at hit
    by_cases h1 : img.width < 200 ∨ img.height < 200
    · rw [if_pos h1] at hit
      exact absurd hit (by simp)
    · rw [if_neg h1] at hit
      by_cases h2 : (ocrText img.ocr).length < 5
      · rw [if_pos h2] at hit
        exact absurd hit (by simp)
      · rw [if_neg h2] at hit
        injection hit with h'
        rw [← h']
        rfl

/-- Closed instance of C3: a 300×300 image whose OCR text "hello" has 5
characters is admitted, with caption heading ++ keywords ++ OCR text. -/
theorem image_chunk_rule_witness :
    (processImage "H" "d.docx" 0 ⟨"media/image1.png", 300, 300, some "hello"⟩).isSome = true ∧
      (⟨some "H diagram figure flowchart architecture illustration hello", some "image",
          some "doc_image_0.png", "d.docx"⟩ : Item).content =
        some ("H" ++ " diagram figure flowchart architecture illustration " ++
          ocrText (some "hello")) :=
  ⟨(image_chunk_rule "H" "d.docx" 0 ⟨"media/image1.png", 300, 300, some "hello"⟩).1.mpr
      (by decide),
   (image_chunk_rule "H" "d.docx" 0 ⟨"media/image1.png", 300, 300, some "hello"⟩).2 _ rfl⟩

/-! ### C5: the table rule -/

lemma tableRows_eq_nil_iff (table : List (List String)) :
    tableRows table = [] ↔ ∀ row ∈ table, rowCells row = [] := by
  rw [tableRows, List.filterMap_eq_nil_iff]
  constructor
  · intro h row hr
    have hrow := h row hr
    by_contra hne
    rw [if_neg hne] at hrow
    simp at hrow
  · intro h row hr
    rw [if_pos (h row hr)]

lemma rowCells_eq_nil_iff (row : List String) :
    rowCells row = [] ↔ ∀ c ∈ row, pyStrip c = "" := by
  rw [rowCells, List.filterMap_eq_nil_iff]
  constructor
  · intro h c hc
    have hcell := h c hc
    by_contra hne
    rw [if_neg hne] at hcell
    simp at hcell
  · intro h c hc
    rw [if_pos (h c hc)]

/-- **C5.** A table emits exactly one text chunk iff some row has a
non-empty (stripped) cell, and the chunk's content is the current
heading followed by the newline-joined rows, each row its non-empty cell
texts joined by " | "; a table with no non-empty row emits nothing. -/
theorem table_chunk_rule (heading file : String) (table : List (List String)) :
    ((tableChunk heading file table).isSome ↔ ∃ row ∈ table, ∃ c ∈ row, pyStrip c ≠ "") ∧
    ∀ it, tableChunk heading file table = some it →
      it = ⟨some (heading ++ "\n" ++ pyJoin "\n" (tableRows table)), some "text", none, file⟩ := by
  constructor
  · rw [tableChunk]
    by_cases h : tableRows table = []
    · rw [if_pos h]
      simp only [Option.isSome_none, Bool.false_eq_true, false_iff]
      intro ⟨row, hr, c, hc, hne⟩
      exact hne ((rowCells_eq_nil_iff row).mp ((tableRows_eq_nil_iff table).mp h row hr) c hc)
    · rw [if_neg h]
      simp only [Option.isSome_some, true_iff]
      by_contra hall
      push_neg at hall
      exact h ((tableRows_eq_nil_iff table).mpr fun row hr =>
        (rowCells_eq_nil_iff row).mpr fun c hc => hall row hr c hc)
  · intro it hit
    rw [tableChunk] at hit
    by_cases h : tableRows table = []
    · rw [if_pos h] at hit
      exact absurd hit (by simp)
    · rw [if_neg h] at hit
      injection hit with h'
      exact h'.symm

/-- Closed instance of C5: a table with rows [" a ", ""] and ["b"] emits
the single chunk "H\na\nb". -/
theorem table_chunk_rule_witness :
    (tableChunk "H" "d.docx" [[" a ", ""], ["b"]]).isSome = true ∧
      (⟨some "H\na\nb", some "text", none, "d.docx"⟩ : Item) =
        ⟨some ("H" ++ "\n" ++ pyJoin "\n" (tableRows [[" a ", ""], ["b"]])), some "text",
          none, "d.docx"⟩ :=
  ⟨(table_chunk_rule "H" "d.docx" [[" a ", ""], ["b"]]).1.mpr (by decide),
   (table_chunk_rule "H" "d.docx" [[" a ", ""], ["b"]]).2 _ rfl⟩

/-! ### C8: the extractor invariant -/

/-- The invariant every extracted chunk satisfies: the image filename is
present exactly for image chunks, and the content is a non-empty string. -/
def ChunkInv (it : Item) : Prop :=
  (it.image ≠ none ↔ it.type = some "image") ∧ it.content ≠ none ∧ it.content ≠ some ""

lemma string_ne_empty_of_length (s : String) (h : s.length ≠ 0) : s ≠ "" := by
  intro he
  rw [he] at h
  exact h rfl

lemma heading_newline_ne_empty (a b : String) : a ++ "\n" ++ b ≠ "" := by
  apply string_ne_empty_of_length
  rw [String.length_append, String.length_append]
  rw [show ("\n".length) = 1 from rfl]
  omega

lemma keywords_content_ne_empty (a b : String) : a ++ IMG_KEYWORDS ++ b ≠ "" := by
  apply string_ne_empty_of_length
  rw [String.length_append, String.length_append]
  have hk : IMG_KEYWORDS.length ≠ 0 := by decide
  omega

lemma paraStep_inv (file : String) (st : String × List Item) (p : Par)
    (h : ∀ it ∈ st.2, ChunkInv it) : ∀ it ∈ (paraStep file st p).2, ChunkInv it := by
  rw [paraStep]
  by_cases h1 : pyStrip p.text = ""
  · rw [if_pos h1]
    exact h
  · rw [if_neg h1]
    by_cases h2 : pyStartsWith p.style "Heading" = true
    · rw [if_pos h2]
      exact h
    · rw [if_neg h2]
      intro it hit
      rcases List.mem_append.mp hit with hm | hm
      · exact h it hm
      · rw [List.mem_singleton] at hm
        subst hm
        refine ⟨by simp, by simp, fun hc => ?_⟩
        exact heading_newline_ne_empty _ _ (Option.some.inj hc)

lemma paraFold_inv (file : String) (ps : List Par) (st : String × List Item)
    (h : ∀ it ∈ st.2, ChunkInv it) :
    ∀ it ∈ (ps.foldl (paraStep file) st).2, ChunkInv it := by
  induction ps generalizing st with
  | nil => exact h
  | cons p rest ih =>
    rw [List.foldl_cons]
    exact ih _ (paraStep_inv file st p h)

lemma tableChunk_inv (heading file : String) (table : List (List String)) (it : Item)
    (h : tableChunk heading file table = some it) : ChunkInv it := by
  rw [tableChunk] at h
  by_cases he : tableRows table = []
  · rw [if_pos he] at h
    exact absurd h (by simp)
  · rw [if_neg he] at h
    injection h with h'
    rw [← h']
    refine ⟨by simp, by simp, fun hc => ?_⟩
    exact heading_newline_ne_empty _ _ (Option.some.inj hc)

lemma processImage_inv (heading file : String) (cnt : Nat) (img : ImgRel) (it : Item)
    (h : processImage heading file cnt img = some it) : ChunkInv it := by
  rw [processImage] at h
  by_cases h1 : img.width < 200 ∨ img.height < 200
  · rw [if_pos h1] at h
    exact absurd h (by simp)
  · rw [if_neg h1] at h
    by_cases h2 : (ocrText img.ocr).length < 5
    · rw [if_pos h2] at h
      exact absurd h (by simp)
    · rw [if_neg h2] at h
      injection h with h'
      rw [← h']
      refine ⟨by simp, by simp, fun hc => ?_⟩
      exact keywords_content_ne_empty _ _ (Option.some.inj hc)

lemma imgStep_inv (heading file : String) (st : List Item × Nat) (img : ImgRel)
    (h : ∀ it ∈ st.1, ChunkInv it) : ∀ it ∈ (imgStep heading file st img).1, ChunkInv it := by
  rw [imgStep]
  by_cases h1 : pyIn "image" img.targetRef = true
  · rw [if_pos h1]
    rcases hE : processImage heading file st.2 img with _ | newIt
    · simp only [hE]
      exact h
    · simp only [hE]
      intro it hit
      rcases List.mem_append.mp hit with hm | hm
      · exact h it hm
      · rw [List.mem_singleton] at hm
        subst hm
        exact processImage_inv heading file st.2 img it hE
  · rw [if_neg h1]
    exact h

lemma imgFold_inv (heading file : String) (rels : List ImgRel) (st : List Item × Nat)
    (h : ∀ it ∈ st.1, ChunkInv it) :
    ∀ it ∈ (rels.foldl (imgStep heading file) st).1, ChunkInv it := by
  induction rels generalizing st with
  | nil => exact h
  | cons img rest ih =>
    rw [List.foldl_cons]
    exact ih _ (imgStep_inv heading file st img h)

/-- **C8.** Every chunk the extractor produces has an image filename iff
its type is `"image"`, and a content field that is a non-empty string. -/
theorem extractor_invariant (file : String) (cnt0 : Nat) (d : DocModel) :
    ∀ it ∈ (extractDoc file cnt0 d).1,
      (it.image ≠ none ↔ it.type = some "image") ∧ it.content ≠ none ∧ it.content ≠ some "" := by
  intro it hit
  simp only [extractDoc, List.mem_append] at hit
  have hinv : ChunkInv it := by
    rcases hit with (hp | ht) | hi
    · exact paraFold_inv file d.pars ("General", [])
        (fun x hx => absurd hx (List.not_mem_nil x)) it hp
    · obtain ⟨table, htab, hsome⟩ := List.mem_filterMap.mp ht
      exact tableChunk_inv (paraState file d).1 file table it hsome
    · exact imgFold_inv (paraState file d).1 file d.rels ([], cnt0)
        (fun x hx => absurd hx (List.not_mem_nil x)) it hi
  exact hinv

/-- A two-paragraph document for the C8 witness: a heading then a body
paragraph. -/
def demoDoc : DocModel :=
  ⟨[⟨"Intro", "Heading 1"⟩, ⟨"Hello world", "Normal"⟩], [], []⟩

/-- Closed instance of C8 at the chunk extracted from `demoDoc`. -/
theorem extractor_invariant_witness :
    ((⟨some "Intro\nHello world", some "text", none, "d.docx"⟩ : Item).image ≠ none ↔
      (⟨some "Intro\nHello world", some "text", none, "d.docx"⟩ : Item).type = some "image") ∧
      (⟨some "Intro\nHello world", some "text", none, "d.docx"⟩ : Item).content ≠ none ∧
      (⟨some "Intro\nHello world", some "text", none, "d.docx"⟩ : Item).content ≠ some "" :=
  extractor_invariant "d.docx" 0 demoDoc
    ⟨some "Intro\nHello world", some "text", none, "d.docx"⟩ (by decide)

end Chat
